import Mathlib

/-!
# Verification of the function-tool contract layer (`agents/tool_function.go`)

This file is a shallow embedding, in Lean 4, of the function-tool contract
layer of the `openai-agents-go` repository: the `FunctionTool` descriptor, the
`SafeNewFunctionTool` / `NewFunctionTool` constructors, the invocation closure
they install, the default failure policy `DefaultToolErrorFunction`, and the
enablement policies (`FunctionToolEnabledFlag`, `FunctionToolEnablerFunc`).

Go's `context.Context` and the `*Agent` argument of enablement policies are
opaque to this component (it only threads them through), so they are modelled
by minimal carrier types.  Go's `error` values are modelled by `GoError`,
which supports `fmt.Errorf("...: %w", err)` wrapping, the only error
construction the source uses.
-/

/-- Minimal model of Go's `context.Context`: the component under verification
only threads the context through, never inspects it, so an opaque carrier with
a single distinguishing field suffices. -/
structure Context where
  id : Nat := 0

/-- Minimal model of the `*Agent` argument of enablement policies: the
component only threads it through. -/
structure Agent where
  name : String

/-- Model of Go `error` values as used in `tool_function.go`: either a leaf
error with a message, or a wrapping via `fmt.Errorf("<text>: %w", err)`
(which prepends text to the wrapped error's message). -/
inductive GoError where
  | base (msg : String)
  | wrap (outerText : String) (inner : GoError)

/-- The `Error()` string of a modelled Go error: `fmt.Errorf("t%w", e)`
yields `t ++ e.Error()`. -/
def GoError.message : GoError → String
  | .base m => m
  | .wrap t inner => t ++ inner.message

/-- `ToolErrorFunction` (src line 77): a callback from (context, error) to a
value sent back to the LLM (`any`, in practice a textual value, modelled as
`Option String` with `none` for Go's nil interface) and an error. -/
def ToolErrorFunction : Type := Context → GoError → Option String × Option GoError

/-- `DefaultToolErrorFunction` (src lines 81–83): the default handler used
when a `FunctionTool` does not specify its own `FailureErrorFunction`.  It
returns a generic error message containing the original error string, and a
nil error. -/
def DefaultToolErrorFunction : ToolErrorFunction :=
  fun _ err =>
    (some ("An error occurred while running the tool. Please try again. Error: "
      ++ err.message), none)

/-- `FunctionToolEnabledFlag` (src lines 90–92): a static enabler always
returning the configured flag value. -/
structure FunctionToolEnabledFlag where
  isEnabled : Bool

/-- The `IsEnabled` method of `FunctionToolEnabledFlag` (src lines 94–96):
returns the stored flag and a nil error.  The Go receiver takes a
`*Agent`, which may be nil, hence `Option Agent`. -/
def FunctionToolEnabledFlag.IsEnabled (f : FunctionToolEnabledFlag)
    (_ : Context) (_ : Option Agent) : Bool × Option GoError :=
  (f.isEnabled, none)

/-- `NewFunctionToolEnabledFlag` (src lines 99–101). -/
def NewFunctionToolEnabledFlag (isEnabled : Bool) : FunctionToolEnabledFlag :=
  { isEnabled := isEnabled }

/-- `FunctionToolEnablerFunc` (src line 114): a function type implementing
the enabler interface by delegation. -/
def FunctionToolEnablerFunc : Type :=
  Context → Option Agent → Bool × Option GoError

/-- The `IsEnabled` method of `FunctionToolEnablerFunc` (src lines 116–118):
calls the wrapped function, propagating its result unchanged. -/
def FunctionToolEnablerFunc.IsEnabled (f : FunctionToolEnablerFunc)
    (ctx : Context) (agent : Option Agent) : Bool × Option GoError :=
  f ctx agent

/-- The `FunctionToolEnabler` interface (src lines 85–87), modelled as the
closed sum of its two implementations in the source file. -/
inductive FunctionToolEnabler where
  | flag (f : FunctionToolEnabledFlag)
  | func (f : FunctionToolEnablerFunc)

/-- Interface dispatch for `FunctionToolEnabler.IsEnabled`. -/
def FunctionToolEnabler.IsEnabled : FunctionToolEnabler → Context → Option Agent →
    Bool × Option GoError
  | .flag f, ctx, agent => f.IsEnabled ctx agent
  | .func f, ctx, agent => f.IsEnabled ctx agent

/-- `FunctionToolEnabled` (src lines 104–106): a static enabler which always
returns true. -/
def FunctionToolEnabled : FunctionToolEnabler :=
  .flag (NewFunctionToolEnabledFlag true)

/-- `FunctionToolDisabled` (src lines 109–111): a static enabler which always
returns false. -/
def FunctionToolDisabled : FunctionToolEnabler :=
  .flag (NewFunctionToolEnabledFlag false)

/-!
## Schema model

`SafeNewFunctionTool` derives a JSON schema for the handler's argument type
`T` and normalizes it to the strict dialect.  Two of the pieces it relies on
are not under `src/`: the reflection-driven schema deriver (the external
`invopop/jsonschema` reflector, configured with `ExpandedStruct: true`,
`RequiredFromJSONSchemaTags: false`, `AllowAdditionalProperties: false`) and
this repository's `EnsureStrictJSONSchema`.  Both are modelled from the spec
below (§4.1 and §4.2 of the design document).  The `util.JSONMap` conversion
from the schema tree to a `map[string]any` (also external) is a pure change
of representation and is modelled as the identity: the schema is kept as a
tree, `SchemaDoc`.
-/

/-- Base (scalar) wire types appearing in argument shapes. -/
inductive BaseType where
  | str
  | num
  | boolean

/-- The JSON-schema `type` tag of a base type. -/
def BaseType.typeName : BaseType → String
  | .str => "string"
  | .num => "integer"
  | .boolean => "boolean"

mutual
/-- A type description: what Go's `reflect` reports about the handler's
argument type `T` (§3 of the spec: nested records of named typed fields,
enum annotations, arrays).  `record goName fields` carries the Go type name
(`""` for an anonymous struct, mirroring `reflect.Type.Name()`), and
`freeMap` is a free-form map type with unconstrained keys, which has no
strict-schema representation. -/
inductive TypeDesc where
  | scalar (b : BaseType)
  | enumOf (b : BaseType) (values : List String)
  | record (goName : String) (fields : Fields)
  | array (elem : TypeDesc)
  | freeMap

/-- The fields of a record type description: wire name and field type, in
declaration order. -/
inductive Fields where
  | nil
  | cons (wireName : String) (fieldType : TypeDesc) (rest : Fields)
end

mutual
/-- A JSON schema document (spec §3 `SchemaDoc`): a tree of nodes.  An
object node carries its properties (ordered), its `required` list and
whether additional properties are forbidden (`additionalProperties: false`).
`freeMapNode` is the draft node for a free-form map, which strictness
normalization rejects. -/
inductive SchemaDoc where
  | objectNode (properties : SchemaProps) (required : List String)
      (additionalForbidden : Bool)
  | arrayNode (items : SchemaDoc)
  | scalarNode (typeName : String)
  | enumNode (typeName : String) (values : List String)
  | freeMapNode

/-- The ordered property map of an object schema node. -/
inductive SchemaProps where
  | nil
  | cons (key : String) (val : SchemaDoc) (rest : SchemaProps)
end

/-- The keys of an object node's property map, in order. -/
def SchemaProps.keys : SchemaProps → List String
  | .nil => []
  | .cons k _ rest => k :: keys rest

mutual
/-- Modelled from the spec: §4.1 Schema Deriver.  The deriver is the external
`invopop/jsonschema` reflector (not under `src/`), configured by
`SafeNewFunctionTool` with `AllowAdditionalProperties: false` (so object
nodes already forbid additional properties) and `ExpandedStruct: true`.
A record becomes an object node keyed by wire names; an enum-annotated field
becomes an enum node; a record with zero fields yields a valid object node
with an empty property set and additional properties forbidden.  This stage
does not yet enforce strictness (the draft `required` list is left empty;
the normalizer replaces it with the full key set). -/
def deriveSchema : TypeDesc → SchemaDoc
  | .scalar b => .scalarNode b.typeName
  | .enumOf b vs => .enumNode b.typeName vs
  | .record _ fs => .objectNode (deriveFields fs) [] true
  | .array el => .arrayNode (deriveSchema el)
  | .freeMap => .freeMapNode

/-- Modelled from the spec: §4.1, property derivation for record fields. -/
def deriveFields : Fields → SchemaProps
  | .nil => .nil
  | .cons n t rest => .cons n (deriveSchema t) (deriveFields rest)
end

mutual
/-- Modelled from the spec: §4.2 Strictness Normalizer.  The function
`EnsureStrictJSONSchema` belongs to this repository but its defining file is
not under `src/`; this definition follows the spec's algorithm: for every
object node replace the `required` list with the full property-name set and
unconditionally forbid additional properties, recursing into every property
sub-schema and every array item schema; leave scalar and enum nodes
unchanged; fail with a strictness error on a node that admits no strict form
(a free-form map with unconstrained keys). -/
def EnsureStrictJSONSchema : SchemaDoc → Except GoError SchemaDoc
  | .objectNode props _ _ =>
    match ensureStrictProps props with
    | .error e => .error e
    | .ok props2 => .ok (.objectNode props2 props2.keys true)
  | .arrayNode items =>
    match EnsureStrictJSONSchema items with
    | .error e => .error e
    | .ok items2 => .ok (.arrayNode items2)
  | .scalarNode t => .ok (.scalarNode t)
  | .enumNode t vs => .ok (.enumNode t vs)
  | .freeMapNode =>
    .error (.base "free-form object with unconstrained keys admits no strict schema")

/-- Modelled from the spec: §4.2 step 3, normalization of every property's
sub-schema. -/
def ensureStrictProps : SchemaProps → Except GoError SchemaProps
  | .nil => .ok .nil
  | .cons k v rest =>
    match EnsureStrictJSONSchema v with
    | .error e => .error e
    | .ok v2 =>
      match ensureStrictProps rest with
      | .error e => .error e
      | .ok rest2 => .ok (.cons k v2 rest2)
end

/-!
## The tool descriptor and its constructors
-/

/-- `FunctionTool` (src lines 29–67), parametrized by the handler's result
type `R` (Go erases it to `any`; `Option R` models a possibly-nil `any`).
`FailureErrorFunction` is Go's `*ToolErrorFunction`: `none` is a nil pointer
(default policy applies), `some none` is a pointer to a nil function
(disables error handling), `some (some f)` a custom policy.
`StrictJSONSchema` is Go's `param.Opt[bool]`: `none` when omitted.
`IsEnabled` is a nil-able interface value. -/
structure FunctionTool (R : Type) where
  Name : String
  Description : String
  ParamsJSONSchema : SchemaDoc
  OnInvokeTool : Context → String → Option R × Option GoError
  FailureErrorFunction : Option (Option ToolErrorFunction)
  StrictJSONSchema : Option Bool
  IsEnabled : Option FunctionToolEnabler

/-- The `ToolName` method (src lines 69–71). -/
def FunctionTool.ToolName {R : Type} (t : FunctionTool R) : String :=
  t.Name

/-- What the Go compiler and runtime supply for a concrete argument type `T`:
its reflected type description (`reflect.TypeOf`) and its JSON decoding
(`json.Unmarshal` into a `T`).  Both are external to the file under
verification, which is generic in `T`. -/
structure GoTypeRep (T : Type) where
  desc : TypeDesc
  decode : String → Except GoError T

/-- The test guarding the anonymous-empty-struct special case of
`SafeNewFunctionTool` (src line 185):
`t.Kind() == reflect.Struct && t.Name() == "" && t.NumField() == 0`. -/
def isAnonymousEmptyStruct : TypeDesc → Bool
  | .record goName .nil => goName == ""
  | _ => false

/-- The `OnInvokeTool` closure bound by `SafeNewFunctionTool`
(src lines 219–225): decode the wire arguments into a `T`; on failure return
`(nil, fmt.Errorf("failed to parse arguments: %w", err))`; on success return
the handler's value and error unchanged. -/
def functionToolOnInvoke {T R : Type} (decode : String → Except GoError T)
    (handler : Context → T → R × Option GoError)
    (ctx : Context) (arguments : String) : Option R × Option GoError :=
  match decode arguments with
  | .error err => (none, some (.wrap "failed to parse arguments: " err))
  | .ok args => (some (handler ctx args).1, (handler ctx args).2)

/-- `SafeNewFunctionTool` (src lines 175–227): build the schema for `T`
(taking the anonymous-empty-struct shortcut of src lines 185–194, otherwise
reflecting, src line 196), normalize it to strict form, and assemble the
descriptor with `StrictJSONSchema` set to true and the decode-then-call
invocation closure.  The `FailureErrorFunction` and `IsEnabled` fields are
not mentioned in the Go composite literal (src lines 214–226), so they take
Go's zero value, nil — here `none`. -/
def SafeNewFunctionTool {T R : Type} (rep : GoTypeRep T)
    (name description : String)
    (handler : Context → T → R × Option GoError) :
    Except GoError (FunctionTool R) :=
  let schema : SchemaDoc :=
    if isAnonymousEmptyStruct rep.desc then
      .objectNode .nil [] true
    else
      deriveSchema rep.desc
  match EnsureStrictJSONSchema schema with
  | .error e =>
    .error (.wrap "failed to ensure strictness of function tool json schema: " e)
  | .ok schemaMap =>
    .ok { Name := name
          ParamsJSONSchema := schemaMap
          StrictJSONSchema := some true
          Description := description
          OnInvokeTool := functionToolOnInvoke rep.decode handler
          FailureErrorFunction := none
          IsEnabled := none }

/-- The result of a Go call that may panic. -/
inductive PanicOr (α : Type) where
  | panicked (e : GoError)
  | ok (v : α)

/-- `NewFunctionTool` (src lines 166–172): delegate to `SafeNewFunctionTool`
and panic on a non-nil error, otherwise return its value. -/
def NewFunctionTool {T R : Type} (rep : GoTypeRep T)
    (name description : String)
    (handler : Context → T → R × Option GoError) :
    PanicOr (FunctionTool R) :=
  match SafeNewFunctionTool rep name description handler with
  | .error err => .panicked err
  | .ok v => .ok v

/-!
## The call-time dispatch (spec-modelled)
-/

/-- The outcome of one tool call as seen by the invoking agent loop. -/
inductive CallOutcome (R : Type) where
  | ok (v : R)
  | message (text : String)
  | fatal (e : GoError)

/-- Modelled from the spec: the orchestration loop's call-time treatment of a
tool call (§4.4(b)–(e) and §7) — the loop is an external collaborator, not
under `src/`.  Per the spec: a decoding failure is an `ArgumentDecodeError`,
surfaced as a call-level error and NOT passed through the failure policy; a
handler failure is passed through the bound failure policy
(`DefaultToolErrorFunction` when `FailureErrorFunction` is unset, re-raised
verbatim when the policy is explicitly a nil function); a failure of the
policy itself escalates as a fatal error for the call. -/
def runToolCall {T R : Type} (rep : GoTypeRep T)
    (handler : Context → T → R × Option GoError)
    (policy : Option (Option ToolErrorFunction))
    (ctx : Context) (arguments : String) : CallOutcome R :=
  match rep.decode arguments with
  | .error e => .fatal (.wrap "failed to parse arguments: " e)
  | .ok args =>
    match handler ctx args with
    | (v, none) => .ok v
    | (_, some herr) =>
      match policy with
      | some none => .fatal herr
      | some (some p) =>
        match p ctx herr with
        | (v, none) => .message (v.getD "")
        | (_, some perr) => .fatal perr
      | none =>
        match DefaultToolErrorFunction ctx herr with
        | (v, none) => .message (v.getD "")
        | (_, some perr) => .fatal perr

/-!
## Wire JSON codec (spec-modelled)

Modelled from the spec: the JSON encode/decode service is an external
collaborator (§1, §6: "UTF-8 JSON object ... decoding uses standard JSON
decoding rules").  The printers below produce the canonical output of Go's
`encoding/json` for the fixture shapes (struct fields in declaration order,
no whitespace, strings quoted with `"` and `\` escaped), and the parsers
decode exactly that format.  They operate on `List Char` and are lifted to
`String` at the boundary.
-/

/-- Escape one character of a JSON string body: `"` and `\` get a leading
backslash, every other character is emitted as itself. -/
def escChar (c : Char) : List Char :=
  if c = '"' ∨ c = '\\' then ['\\', c] else [c]

/-- Escape a JSON string body. -/
def escapeList : List Char → List Char
  | [] => []
  | c :: cs => escChar c ++ escapeList cs

/-- Encode a JSON string, quotes included. -/
def encJStr (s : String) : List Char :=
  '"' :: (escapeList s.data ++ ['"'])

/-- Parse a JSON string body up to the closing quote, un-escaping
backslash sequences; `acc` holds the already-read characters reversed. -/
def parseJStringBody : List Char → List Char → Option (String × List Char)
  | [], _ => none
  | c :: cs, acc =>
    if c = '"' then some (String.mk acc.reverse, cs)
    else if c = '\\' then
      match cs with
      | [] => none
      | d :: ds => parseJStringBody ds (d :: acc)
    else parseJStringBody cs (c :: acc)

/-- Parse a JSON string, expecting the opening quote. -/
def parseJString : List Char → Option (String × List Char)
  | [] => none
  | c :: cs => if c = '"' then parseJStringBody cs [] else none

/-- Consume a run of decimal digits, folding them onto `acc`; stops at the
first non-digit. -/
def parseDigits : List Char → Nat → Nat × List Char
  | [], acc => (acc, [])
  | c :: cs, acc =>
    if c.isDigit then parseDigits cs (acc * 10 + (c.toNat - 48))
    else (acc, c :: cs)

/-- Big-endian decimal digits of `n` (empty for `n = 0`); `fuel` bounds the
recursion and any `fuel ≥ n` is exact. -/
def natPrintAux : Nat → Nat → List Char
  | 0, _ => []
  | _ + 1, 0 => []
  | fuel + 1, n + 1 =>
    natPrintAux fuel ((n + 1) / 10) ++ [Nat.digitChar ((n + 1) % 10)]

/-- Print a natural number in decimal. -/
def printNatL (n : Nat) : List Char :=
  if n = 0 then ['0'] else natPrintAux n n

/-- Parse a natural number: at least one leading digit, taken greedily. -/
def parseNatL (cs : List Char) : Option (Nat × List Char) :=
  match cs with
  | [] => none
  | c :: _ => if c.isDigit then some (parseDigits cs 0) else none

/-- Print an integer in decimal, with a leading minus sign when negative. -/
def printIntL (i : Int) : List Char :=
  if i < 0 then '-' :: printNatL i.natAbs else printNatL i.natAbs

/-- Parse an integer: an optional minus sign followed by digits. -/
def parseIntL : List Char → Option (Int × List Char)
  | [] => none
  | c :: cs =>
    if c = '-' then (parseNatL cs).map (fun p => (-(p.1 : Int), p.2))
    else (parseNatL (c :: cs)).map (fun p => ((p.1 : Int), p.2))

/-- Expect a literal character sequence, returning the rest of the input. -/
def dropLit : List Char → List Char → Option (List Char)
  | [], cs => some cs
  | _ :: _, [] => none
  | l :: ls, c :: cs => if c = l then dropLit ls cs else none

/-- Print a JSON boolean. -/
def printBoolL (b : Bool) : List Char :=
  if b then ['t', 'r', 'u', 'e'] else ['f', 'a', 'l', 's', 'e']

/-- Parse a JSON boolean. -/
def parseBoolL (cs : List Char) : Option (Bool × List Char) :=
  match dropLit ['t', 'r', 'u', 'e'] cs with
  | some rest => some (true, rest)
  | none =>
    match dropLit ['f', 'a', 'l', 's', 'e'] cs with
    | some rest => some (false, rest)
    | none => none

/-- Input starts with something that is not a decimal digit (or is empty), so
greedy digit parsing stops exactly there. -/
def noLeadingDigit : List Char → Bool
  | [] => true
  | c :: _ => !c.isDigit

/-!
## Round-trip fixtures

A composite argument type exercising all the shapes the spec's round-trip
property names: string/number/boolean scalars, an enum-annotated string
field, a nested object, and an array of objects.  The encoder produces the
canonical `encoding/json` output for these Go structs (fields in declaration
order); the parser is its inverse and is the `json.Unmarshal` model used for
this argument type.
-/

/-- An element of the array-of-objects fixture field. -/
structure Item where
  id : Int
  tag : String

/-- The nested-object fixture field. -/
structure InnerObj where
  label : String
  flag : Bool

/-- The composite fixture argument type. -/
structure FixtureArgs where
  text : String
  count : Int
  units : String
  child : InnerObj
  items : List Item

/-- Encode one `Item` as a JSON object. -/
def encodeItem (v : Item) : List Char :=
  ['\x7b', '"', 'i', 'd', '"', ':'] ++ printIntL v.id
    ++ [',', '"', 't', 'a', 'g', '"', ':'] ++ encJStr v.tag ++ ['\x7d']

/-- Encode an `InnerObj` as a JSON object. -/
def encodeInner (v : InnerObj) : List Char :=
  ['\x7b', '"', 'l', 'a', 'b', 'e', 'l', '"', ':'] ++ encJStr v.label
    ++ [',', '"', 'f', 'l', 'a', 'g', '"', ':'] ++ printBoolL v.flag ++ ['\x7d']

/-- Encode the second and later array elements, each with its separator. -/
def encodeItemsTail : List Item → List Char
  | [] => []
  | x :: xs => ',' :: (encodeItem x ++ encodeItemsTail xs)

/-- Encode a JSON array of `Item`s. -/
def encodeItems : List Item → List Char
  | [] => ['[', ']']
  | x :: xs => '[' :: (encodeItem x ++ (encodeItemsTail xs ++ [']']))

/-- Encode the composite fixture as a JSON object (canonical
`encoding/json` output: declaration order, no whitespace). -/
def encodeFixtureArgs (v : FixtureArgs) : List Char :=
  ['\x7b', '"', 't', 'e', 'x', 't', '"', ':'] ++ encJStr v.text
    ++ [',', '"', 'c', 'o', 'u', 'n', 't', '"', ':'] ++ printIntL v.count
    ++ [',', '"', 'u', 'n', 'i', 't', 's', '"', ':'] ++ encJStr v.units
    ++ [',', '"', 'c', 'h', 'i', 'l', 'd', '"', ':'] ++ encodeInner v.child
    ++ [',', '"', 'i', 't', 'e', 'm', 's', '"', ':'] ++ encodeItems v.items
    ++ ['\x7d']

/-- Parse one `Item`. -/
def parseItem (cs : List Char) : Option (Item × List Char) :=
  match dropLit ['\x7b', '"', 'i', 'd', '"', ':'] cs with
  | none => none
  | some cs1 =>
    match parseIntL cs1 with
    | none => none
    | some (vid, cs2) =>
      match dropLit [',', '"', 't', 'a', 'g', '"', ':'] cs2 with
      | none => none
      | some cs3 =>
        match parseJString cs3 with
        | none => none
        | some (vtag, cs4) =>
          match cs4 with
          | [] => none
          | c :: cs5 => if c = '\x7d' then some (⟨vid, vtag⟩, cs5) else none

/-- Parse an `InnerObj`. -/
def parseInner (cs : List Char) : Option (InnerObj × List Char) :=
  match dropLit ['\x7b', '"', 'l', 'a', 'b', 'e', 'l', '"', ':'] cs with
  | none => none
  | some cs1 =>
    match parseJString cs1 with
    | none => none
    | some (vlabel, cs2) =>
      match dropLit [',', '"', 'f', 'l', 'a', 'g', '"', ':'] cs2 with
      | none => none
      | some cs3 =>
        match parseBoolL cs3 with
        | none => none
        | some (vflag, cs4) =>
          match cs4 with
          | [] => none
          | c :: cs5 => if c = '\x7d' then some (⟨vlabel, vflag⟩, cs5) else none

/-- Parse the `,`-separated continuation of a JSON array of `Item`s, up to
and including the closing bracket; `fuel` bounds the number of further
elements (any bound at least the element count is exact). -/
def parseItemsTail : Nat → List Char → Option (List Item × List Char)
  | _, [] => none
  | fuel, c :: cs =>
    if c = ']' then some ([], cs)
    else if c = ',' then
      match fuel with
      | 0 => none
      | fuel + 1 =>
        match parseItem cs with
        | none => none
        | some (x, cs2) =>
          match parseItemsTail fuel cs2 with
          | none => none
          | some (xs, cs3) => some (x :: xs, cs3)
    else none

/-- Parse a JSON array of `Item`s. -/
def parseItems (cs : List Char) : Option (List Item × List Char) :=
  match cs with
  | [] => none
  | c :: cs1 =>
    if c = '[' then
      match cs1 with
      | [] => none
      | d :: cs2 =>
        if d = ']' then some ([], cs2)
        else
          match parseItem (d :: cs2) with
          | none => none
          | some (x, cs3) =>
            match parseItemsTail cs3.length cs3 with
            | none => none
            | some (xs, cs4) => some (x :: xs, cs4)
    else none

/-- Parse the composite fixture object. -/
def parseFixture (cs : List Char) : Option (FixtureArgs × List Char) :=
  match dropLit ['\x7b', '"', 't', 'e', 'x', 't', '"', ':'] cs with
  | none => none
  | some cs1 =>
    match parseJString cs1 with
    | none => none
    | some (vtext, cs2) =>
      match dropLit [',', '"', 'c', 'o', 'u', 'n', 't', '"', ':'] cs2 with
      | none => none
      | some cs3 =>
        match parseIntL cs3 with
        | none => none
        | some (vcount, cs4) =>
          match dropLit [',', '"', 'u', 'n', 'i', 't', 's', '"', ':'] cs4 with
          | none => none
          | some cs5 =>
            match parseJString cs5 with
            | none => none
            | some (vunits, cs6) =>
              match dropLit [',', '"', 'c', 'h', 'i', 'l', 'd', '"', ':'] cs6 with
              | none => none
              | some cs7 =>
                match parseInner cs7 with
                | none => none
                | some (vchild, cs8) =>
                  match dropLit [',', '"', 'i', 't', 'e', 'm', 's', '"', ':'] cs8 with
                  | none => none
                  | some cs9 =>
                    match parseItems cs9 with
                    | none => none
                    | some (vitems, cs10) =>
                      match cs10 with
                      | [] => none
                      | c :: cs11 =>
                        if c = '\x7d' then
                          some (⟨vtext, vcount, vunits, vchild, vitems⟩, cs11)
                        else none

/-- `json.Marshal` for the fixture type, as a `String`. -/
def encodeFixture (v : FixtureArgs) : String :=
  String.mk (encodeFixtureArgs v)

/-- `json.Unmarshal` for the fixture type: the payload must be exactly one
well-formed fixture object (trailing data is an error, as in Go). -/
def decodeFixtureArgs (s : String) : Except GoError FixtureArgs :=
  match parseFixture s.data with
  | some (v, []) => .ok v
  | _ => .error (.base "invalid JSON payload for fixture arguments")

/-- The reflected type description of `FixtureArgs`: its field names and
shapes, with the `units` field annotated as an enum over
`celsius`/`fahrenheit` (spec §8's enum fixture). -/
def fixtureDesc : TypeDesc :=
  .record "FixtureArgs" (.cons "text" (.scalar .str)
    (.cons "count" (.scalar .num)
      (.cons "units" (.enumOf .str ["celsius", "fahrenheit"])
        (.cons "child" (.record "InnerObj" (.cons "label" (.scalar .str)
          (.cons "flag" (.scalar .boolean) .nil)))
          (.cons "items" (.array (.record "Item" (.cons "id" (.scalar .num)
            (.cons "tag" (.scalar .str) .nil))))
            .nil)))))

/-- What the Go runtime supplies for the fixture argument type. -/
def fixtureRep : GoTypeRep FixtureArgs :=
  { desc := fixtureDesc, decode := decodeFixtureArgs }

/-!
## Concrete instances

Concrete contexts, argument-type representations, handlers and the tools
`SafeNewFunctionTool` builds from them, used to evaluate the verified
properties on closed inputs.
-/

/-- A concrete execution context. -/
def ctx0 : Context := {}

/-- A bare-integer argument type: decoding accepts exactly the payload `"7"`
and rejects everything else. -/
def natRep : GoTypeRep Nat :=
  { desc := .scalar .num
    decode := fun s => if s = "7" then .ok 7 else .error (.base "bad payload") }

/-- A handler over the bare-integer argument type. -/
def natHandler : Context → Nat → Nat × Option GoError :=
  fun _ n => (n + 1, none)

/-- The tool `SafeNewFunctionTool` builds from `natRep` and `natHandler`. -/
def natTool : FunctionTool Nat :=
  { Name := "add_one"
    Description := ""
    ParamsJSONSchema := .scalarNode "integer"
    OnInvokeTool := functionToolOnInvoke natRep.decode natHandler
    FailureErrorFunction := none
    StrictJSONSchema := some true
    IsEnabled := none }

/-- An anonymous empty-record argument type. -/
def emptyRep : GoTypeRep Unit :=
  { desc := .record "" .nil, decode := fun _ => .ok () }

/-- A handler over the empty-record argument type. -/
def unitHandler : Context → Unit → Nat × Option GoError :=
  fun _ _ => (0, none)

/-- The tool `SafeNewFunctionTool` builds from `emptyRep` and `unitHandler`. -/
def emptyTool : FunctionTool Nat :=
  { Name := "t"
    Description := ""
    ParamsJSONSchema := .objectNode .nil [] true
    OnInvokeTool := functionToolOnInvoke emptyRep.decode unitHandler
    FailureErrorFunction := none
    StrictJSONSchema := some true
    IsEnabled := none }

/-- An argument type whose reflected shape is a free-form map, which has no
strict schema; constructing a tool from it fails. -/
def freeMapRep : GoTypeRep Nat :=
  { desc := .freeMap, decode := fun _ => .error (.base "bad payload") }

/-- The construction error produced for `freeMapRep`. -/
def strictErr : GoError :=
  .wrap "failed to ensure strictness of function tool json schema: "
    (.base "free-form object with unconstrained keys admits no strict schema")

/-- The identity handler over the fixture argument type. -/
def fixtureHandler : Context → FixtureArgs → FixtureArgs × Option GoError :=
  fun _ a => (a, none)

/-- A concrete fixture value exercising escapes, a negative number, an enum
value, the nested object and a two-element object array. -/
def v0 : FixtureArgs :=
  { text := "a\"b\\c"
    count := -12
    units := "celsius"
    child := { label := "x", flag := true }
    items := [{ id := 3, tag := "t1" }, { id := -4, tag := "t2" }] }

/-- The tool `SafeNewFunctionTool` builds from `fixtureRep` and
`fixtureHandler`; its schema is the strict normalization of `fixtureDesc`. -/
def fixtureTool : FunctionTool FixtureArgs :=
  { Name := "fx"
    Description := ""
    ParamsJSONSchema := .objectNode
      (.cons "text" (.scalarNode "string")
        (.cons "count" (.scalarNode "integer")
          (.cons "units" (.enumNode "string" ["celsius", "fahrenheit"])
            (.cons "child" (.objectNode
              (.cons "label" (.scalarNode "string")
                (.cons "flag" (.scalarNode "boolean") .nil))
              ["label", "flag"] true)
              (.cons "items" (.arrayNode (.objectNode
                (.cons "id" (.scalarNode "integer")
                  (.cons "tag" (.scalarNode "string") .nil))
                ["id", "tag"] true))
                .nil)))))
      ["text", "count", "units", "child", "items"] true
    OnInvokeTool := functionToolOnInvoke fixtureRep.decode fixtureHandler
    FailureErrorFunction := none
    StrictJSONSchema := some true
    IsEnabled := none }

/-!
## Codec correctness lemmas
-/

theorem parseJStringBody_escape (l : List Char) :
    ∀ (acc rest : List Char),
      parseJStringBody (escapeList l ++ '"' :: rest) acc =
        some (String.mk (acc.reverse ++ l), rest) := by
  induction l with
  | nil =>
    intro acc rest
    simp only [escapeList, List.nil_append, List.append_nil]
    rw [parseJStringBody.eq_def]
    simp
  | cons c l ih =>
    intro acc rest
    by_cases hc : c = '"' ∨ c = '\\'
    · have h1 : escapeList (c :: l) = '\\' :: c :: escapeList l := by
        simp [escapeList, escChar, hc]
      rw [h1]
      have h2 : parseJStringBody ('\\' :: c :: (escapeList l ++ '"' :: rest)) acc =
          parseJStringBody (escapeList l ++ '"' :: rest) (c :: acc) := by
        rw [parseJStringBody.eq_def]
        simp
      simp only [List.cons_append] at h2 ⊢
      rw [h2, ih (c :: acc) rest]
      simp
    · push_neg at hc
      have h1 : escapeList (c :: l) = c :: escapeList l := by
        simp [escapeList, escChar, hc.1, hc.2]
      rw [h1]
      have h2 : parseJStringBody (c :: (escapeList l ++ '"' :: rest)) acc =
          parseJStringBody (escapeList l ++ '"' :: rest) (c :: acc) := by
        rw [parseJStringBody.eq_def]
        simp [hc.1, hc.2]
      simp only [List.cons_append] at h2 ⊢
      rw [h2, ih (c :: acc) rest]
      simp

theorem parseJString_enc (s : String) (rest : List Char) :
    parseJString (encJStr s ++ rest) = some (s, rest) := by
  obtain ⟨l⟩ := s
  have h : encJStr ⟨l⟩ ++ rest = '"' :: (escapeList l ++ '"' :: rest) := by
    simp [encJStr]
  rw [h]
  simp [parseJString, parseJStringBody_escape]

theorem digitChar_isDigit {d : Nat} (hd : d < 10) :
    (Nat.digitChar d).isDigit = true := by
  interval_cases d <;> decide

theorem digitChar_val {d : Nat} (hd : d < 10) :
    (Nat.digitChar d).toNat - 48 = d := by
  interval_cases d <;> decide

theorem parseDigits_natPrintAux (fuel : Nat) :
    ∀ (n acc : Nat) (rest : List Char), n ≤ fuel →
      parseDigits (natPrintAux fuel n ++ rest) acc =
        parseDigits rest (acc * 10 ^ (natPrintAux fuel n).length + n) := by
  induction fuel with
  | zero =>
    intro n acc rest hn
    have : n = 0 := by omega
    subst this
    simp [natPrintAux]
  | succ fuel ih =>
    intro n acc rest hn
    match n with
    | 0 => simp [natPrintAux]
    | m + 1 =>
      have hq : (m + 1) / 10 ≤ fuel := by omega
      have hr : (m + 1) % 10 < 10 := by omega
      rw [natPrintAux]
      rw [List.append_assoc, List.cons_append, List.nil_append,
        ih ((m + 1) / 10) acc _ hq]
      have hstep :
          parseDigits (Nat.digitChar ((m + 1) % 10) :: rest)
            (acc * 10 ^ (natPrintAux fuel ((m + 1) / 10)).length + (m + 1) / 10) =
          parseDigits rest
            ((acc * 10 ^ (natPrintAux fuel ((m + 1) / 10)).length + (m + 1) / 10) * 10
              + (m + 1) % 10) := by
        simp [parseDigits, digitChar_isDigit hr, digitChar_val hr]
      rw [hstep]
      have halg :
          (acc * 10 ^ (natPrintAux fuel ((m + 1) / 10)).length + (m + 1) / 10) * 10
              + (m + 1) % 10 =
          acc * 10 ^ ((natPrintAux fuel ((m + 1) / 10)).length + 1) + (m + 1) := by
        have hdm : (m + 1) / 10 * 10 + (m + 1) % 10 = m + 1 := by omega
        calc (acc * 10 ^ (natPrintAux fuel ((m + 1) / 10)).length + (m + 1) / 10) * 10
              + (m + 1) % 10
            = acc * (10 ^ (natPrintAux fuel ((m + 1) / 10)).length * 10)
              + ((m + 1) / 10 * 10 + (m + 1) % 10) := by ring
          _ = acc * 10 ^ ((natPrintAux fuel ((m + 1) / 10)).length + 1) + (m + 1) := by
              rw [hdm, ← pow_succ]
      rw [halg]
      simp

theorem parseDigits_stop (cs : List Char) (acc : Nat)
    (h : noLeadingDigit cs = true) : parseDigits cs acc = (acc, cs) := by
  match cs with
  | [] => simp [parseDigits]
  | c :: cs' =>
    simp only [noLeadingDigit, Bool.not_eq_true'] at h
    simp [parseDigits, h]

theorem natPrintAux_all_digits (fuel : Nat) :
    ∀ (n : Nat) (c : Char), c ∈ natPrintAux fuel n → c.isDigit = true := by
  induction fuel with
  | zero => intro n c hc; simp [natPrintAux] at hc
  | succ fuel ih =>
    intro n c hc
    match n with
    | 0 => simp [natPrintAux] at hc
    | m + 1 =>
      rw [natPrintAux] at hc
      rcases List.mem_append.mp hc with h | h
      · exact ih _ c h
      · have : c = Nat.digitChar ((m + 1) % 10) := by simpa using h
        subst this
        exact digitChar_isDigit (by omega)

theorem natPrintAux_ne_nil {fuel n : Nat} (h0 : 0 < n) (hn : n ≤ fuel) :
    natPrintAux fuel n ≠ [] := by
  match fuel, n with
  | 0, n => omega
  | fuel + 1, 0 => omega
  | fuel + 1, m + 1 => rw [natPrintAux]; simp

theorem printNatL_head_digit (n : Nat) :
    ∃ d ds, printNatL n = d :: ds ∧ d.isDigit = true := by
  by_cases h0 : n = 0
  · subst h0
    exact ⟨'0', [], rfl, by decide⟩
  · have hne : natPrintAux n n ≠ [] := natPrintAux_ne_nil (by omega) le_rfl
    match haux : natPrintAux n n with
    | [] => exact absurd haux hne
    | d :: ds =>
      refine ⟨d, ds, by simp [printNatL, h0, haux], ?_⟩
      exact natPrintAux_all_digits n n d (by rw [haux]; exact List.mem_cons_self d ds)

theorem parseNatL_print (n : Nat) (rest : List Char)
    (h : noLeadingDigit rest = true) :
    parseNatL (printNatL n ++ rest) = some (n, rest) := by
  by_cases h0 : n = 0
  · subst h0
    have : printNatL 0 ++ rest = '0' :: rest := by simp [printNatL]
    rw [this]
    have h1 : parseNatL ('0' :: rest) = some (parseDigits ('0' :: rest) 0) := by
      simp [parseNatL]
    rw [h1]
    have h2 : parseDigits ('0' :: rest) 0 = parseDigits rest 0 := by
      simp [parseDigits]
    rw [h2, parseDigits_stop rest 0 h]
  · obtain ⟨d, ds, hpr, hd⟩ := printNatL_head_digit n
    have hpn : printNatL n = natPrintAux n n := by simp [printNatL, h0]
    rw [hpr, List.cons_append]
    have h1 : parseNatL (d :: (ds ++ rest)) = some (parseDigits (d :: (ds ++ rest)) 0) := by
      simp [parseNatL, hd]
    rw [h1, ← List.cons_append, ← hpr, hpn,
      parseDigits_natPrintAux n n 0 rest le_rfl, parseDigits_stop rest _ h]
    simp

theorem parseIntL_print (i : Int) (rest : List Char)
    (h : noLeadingDigit rest = true) :
    parseIntL (printIntL i ++ rest) = some (i, rest) := by
  by_cases hi : i < 0
  · have h1 : printIntL i ++ rest = '-' :: (printNatL i.natAbs ++ rest) := by
      simp [printIntL, hi]
    rw [h1]
    have h2 : parseIntL ('-' :: (printNatL i.natAbs ++ rest)) =
        (parseNatL (printNatL i.natAbs ++ rest)).map
          (fun p => (-(p.1 : Int), p.2)) := by
      simp [parseIntL]
    rw [h2, parseNatL_print i.natAbs rest h]
    show some (-((i.natAbs : Nat) : Int), rest) = some (i, rest)
    rw [show -((i.natAbs : Nat) : Int) = i by omega]
  · obtain ⟨d, ds, hpr, hd⟩ := printNatL_head_digit i.natAbs
    have h1 : printIntL i = printNatL i.natAbs := by simp [printIntL, hi]
    have hdm : d ≠ '-' := by
      intro hcon
      rw [hcon] at hd
      exact absurd hd (by decide)
    rw [h1, hpr, List.cons_append]
    have h2 : parseIntL (d :: (ds ++ rest)) =
        (parseNatL (d :: (ds ++ rest))).map (fun p => ((p.1 : Int), p.2)) := by
      simp [parseIntL, hdm]
    rw [h2, ← List.cons_append, ← hpr, parseNatL_print i.natAbs rest h]
    show some (((i.natAbs : Nat) : Int), rest) = some (i, rest)
    rw [show ((i.natAbs : Nat) : Int) = i by omega]

theorem dropLit_append (ls : List Char) :
    ∀ rest : List Char, dropLit ls (ls ++ rest) = some rest := by
  induction ls with
  | nil => intro rest; simp [dropLit]
  | cons l ls ih => intro rest; simp [dropLit, ih]

theorem parseBoolL_print (b : Bool) (rest : List Char) :
    parseBoolL (printBoolL b ++ rest) = some (b, rest) := by
  cases b
  · have ht : dropLit ['t', 'r', 'u', 'e'] ('f' :: 'a' :: 'l' :: 's' :: 'e' :: rest) =
        none := by
      simp [dropLit]
    have hf : dropLit ['f', 'a', 'l', 's', 'e'] ('f' :: 'a' :: 'l' :: 's' :: 'e' :: rest) =
        some rest := by
      simpa using dropLit_append ['f', 'a', 'l', 's', 'e'] rest
    simp [parseBoolL, printBoolL, ht, hf]
  · have ht : dropLit ['t', 'r', 'u', 'e'] ('t' :: 'r' :: 'u' :: 'e' :: rest) =
        some rest := by
      simpa using dropLit_append ['t', 'r', 'u', 'e'] rest
    simp [parseBoolL, printBoolL, ht]

/-!
## Fixture round-trip lemmas
-/

@[simp] theorem noLeadingDigit_comma (x : List Char) :
    noLeadingDigit (',' :: x) = true := by
  simp only [noLeadingDigit]
  decide

@[simp] theorem noLeadingDigit_rbrace (x : List Char) :
    noLeadingDigit ('\x7d' :: x) = true := by
  simp only [noLeadingDigit]
  decide

theorem parseItem_enc (v : Item) (rest : List Char) :
    parseItem (encodeItem v ++ rest) = some (v, rest) := by
  obtain ⟨vid, vtag⟩ := v
  simp [encodeItem, parseItem, dropLit, List.append_assoc, parseIntL_print,
    parseJString_enc]

theorem parseInner_enc (v : InnerObj) (rest : List Char) :
    parseInner (encodeInner v ++ rest) = some (v, rest) := by
  obtain ⟨vlabel, vflag⟩ := v
  simp [encodeInner, parseInner, dropLit, List.append_assoc,
    parseJString_enc, parseBoolL_print]

theorem parseItemsTail_enc (xs : List Item) :
    ∀ (fuel : Nat) (rest : List Char), xs.length ≤ fuel →
      parseItemsTail fuel (encodeItemsTail xs ++ ']' :: rest) = some (xs, rest) := by
  induction xs with
  | nil =>
    intro fuel rest _
    rw [encodeItemsTail]
    rw [List.nil_append, parseItemsTail.eq_def]
    simp
  | cons x xs ih =>
    intro fuel rest h
    match fuel with
    | 0 => simp at h
    | fuel + 1 =>
      have h' : xs.length ≤ fuel := by simp at h; omega
      have hrec := ih fuel rest h'
      rw [encodeItemsTail]
      rw [List.cons_append, parseItemsTail.eq_def]
      simp [List.append_assoc, parseItem_enc, hrec]

theorem length_le_encodeItemsTail (xs : List Item) (r : List Char) :
    xs.length ≤ (encodeItemsTail xs ++ r).length := by
  induction xs with
  | nil => simp
  | cons x xs ih =>
    rw [encodeItemsTail]
    simp only [List.cons_append, List.length_cons, List.length_append,
      List.append_assoc]
    simp only [List.length_append] at ih
    omega

theorem parseItems_enc (xs : List Item) (rest : List Char) :
    parseItems (encodeItems xs ++ rest) = some (xs, rest) := by
  cases xs with
  | nil =>
    rw [encodeItems]
    simp [parseItems]
  | cons x xs =>
    obtain ⟨t, ht⟩ : ∃ t, encodeItem x = '\x7b' :: t := ⟨_, rfl⟩
    have hlen : xs.length ≤ (encodeItemsTail xs).length + (rest.length + 1) := by
      have := length_le_encodeItemsTail xs (']' :: rest)
      simp only [List.length_append, List.length_cons] at this
      omega
    have htail := parseItemsTail_enc xs ((encodeItemsTail xs).length + (rest.length + 1))
      rest hlen
    have hpi : parseItem ('\x7b' :: (t ++ (encodeItemsTail xs ++ ']' :: rest))) =
        some (x, encodeItemsTail xs ++ ']' :: rest) := by
      rw [show '\x7b' :: (t ++ (encodeItemsTail xs ++ ']' :: rest)) =
          encodeItem x ++ (encodeItemsTail xs ++ ']' :: rest) from by rw [ht]; rfl]
      exact parseItem_enc x _
    rw [encodeItems]
    simp only [List.cons_append, List.append_assoc, List.singleton_append, ht]
    simp only [List.cons_append] at hpi ⊢
    simp [parseItems, hpi, htail]

theorem parseFixture_enc (v : FixtureArgs) (rest : List Char) :
    parseFixture (encodeFixtureArgs v ++ rest) = some (v, rest) := by
  obtain ⟨vtext, vcount, vunits, vchild, vitems⟩ := v
  simp [encodeFixtureArgs, parseFixture, dropLit, List.append_assoc,
    parseJString_enc, parseIntL_print, parseInner_enc, parseItems_enc]

theorem decodeFixtureArgs_encodeFixture (v : FixtureArgs) :
    decodeFixtureArgs (encodeFixture v) = .ok v := by
  have h : parseFixture (encodeFixtureArgs v) = some (v, []) := by
    have := parseFixture_enc v []
    simpa using this
  simp [decodeFixtureArgs, encodeFixture, h]

/-!
## Shape of a successfully constructed tool
-/

theorem safeNewFunctionTool_ok_shape {T R : Type} (rep : GoTypeRep T)
    (name description : String) (handler : Context → T → R × Option GoError)
    (tool : FunctionTool R)
    (h : SafeNewFunctionTool rep name description handler = .ok tool) :
    tool.Name = name ∧ tool.Description = description ∧
    tool.StrictJSONSchema = some true ∧ tool.FailureErrorFunction = none ∧
    tool.IsEnabled = none ∧
    tool.OnInvokeTool = functionToolOnInvoke rep.decode handler := by
  unfold SafeNewFunctionTool at h
  split at h <;> (try dsimp only at h) <;> split at h <;>
    first
      | (injection h with h
         subst h
         exact ⟨rfl, rfl, rfl, rfl, rfl, rfl⟩)
      | simp at h

theorem natTool_ok :
    SafeNewFunctionTool natRep "add_one" "" natHandler = .ok natTool := rfl

theorem emptyTool_ok :
    SafeNewFunctionTool emptyRep "t" "" unitHandler = .ok emptyTool := rfl

theorem fixtureTool_ok :
    SafeNewFunctionTool fixtureRep "fx" "" fixtureHandler = .ok fixtureTool := rfl

/-!
## Verified claims
-/

/-- C1: for every tool built by `SafeNewFunctionTool` and every argument
string that does not decode into the handler's argument type, invoking
`OnInvokeTool` returns the wrapped decode error (`failed to parse
arguments: ...`) with a nil result.  The conclusion is a fixed value that
does not mention the handler — the theorem holds for every handler, so the
handler is never consulted — and, per the spec-modelled call dispatch, the
call outcome is the same fatal decode error for every failure policy: the
error is not passed through the policy. -/
theorem onInvokeTool_decode_error {T R : Type} (rep : GoTypeRep T)
    (name description : String) (handler : Context → T → R × Option GoError)
    (tool : FunctionTool R) (ctx : Context) (s : String) (e : GoError)
    (hdec : rep.decode s = .error e)
    (hok : SafeNewFunctionTool rep name description handler = .ok tool) :
    tool.OnInvokeTool ctx s =
      (none, some (.wrap "failed to parse arguments: " e))
    ∧ ∀ policy : Option (Option ToolErrorFunction),
        runToolCall rep handler policy ctx s =
          .fatal (.wrap "failed to parse arguments: " e) := by
  obtain ⟨-, -, -, -, -, hinv⟩ :=
    safeNewFunctionTool_ok_shape rep name description handler tool hok
  refine ⟨?_, ?_⟩
  · rw [hinv]
    simp [functionToolOnInvoke, hdec]
  · intro policy
    simp [runToolCall, hdec]

/-- Witness for C1 at a concrete undecodable payload. -/
theorem onInvokeTool_decode_error_witness :
    natRep.decode "zz" = .error (.base "bad payload")
    ∧ natTool.OnInvokeTool ctx0 "zz" =
        (none, some (.wrap "failed to parse arguments: " (.base "bad payload")))
    ∧ runToolCall natRep natHandler (some (some DefaultToolErrorFunction)) ctx0 "zz" =
        .fatal (.wrap "failed to parse arguments: " (.base "bad payload")) := by
  refine ⟨rfl, ?_, ?_⟩
  · exact (onInvokeTool_decode_error natRep "add_one" "" natHandler natTool ctx0 "zz"
      (.base "bad payload") rfl natTool_ok).1
  · exact (onInvokeTool_decode_error natRep "add_one" "" natHandler natTool ctx0 "zz"
      (.base "bad payload") rfl natTool_ok).2 (some (some DefaultToolErrorFunction))

/-- C2 (amended): the default failure policy returns a result made of the
generic masking message with the original error text appended, and a nil
error (no fatal escalation).  Contrary to the claim as stated, the result
does contain the raw error text. -/
theorem defaultToolErrorFunction_masks (ctx : Context) (err : GoError) :
    DefaultToolErrorFunction ctx err =
      (some ("An error occurred while running the tool. Please try again. Error: "
        ++ err.message), none) := rfl

/-- C2 (counterexample): at the concrete handler error `boom`, the default
failure policy's result is the generic message with `boom` appended — it
contains the raw error text and is not the bare generic masking message,
refuting the claim as stated. -/
theorem defaultToolErrorFunction_counterexample :
    (DefaultToolErrorFunction ctx0 (.base "boom")).1 =
      some ("An error occurred while running the tool. Please try again. Error: "
        ++ "boom")
    ∧ (DefaultToolErrorFunction ctx0 (.base "boom")).1 ≠
        some "An error occurred while running the tool. Please try again. Error: "
    ∧ (DefaultToolErrorFunction ctx0 (.base "boom")).2 = none := by
  refine ⟨rfl, ?_, rfl⟩
  decide

/-- C3: for every argument type whose reflected description is a record with
zero fields (anonymous or named), `SafeNewFunctionTool` succeeds and the
schema of the built tool is an object node with an empty property map, an
empty required list and additional properties forbidden — not an
unconstrained object schema. -/
theorem safeNewFunctionTool_empty_record {T R : Type} (rep : GoTypeRep T)
    (name description : String) (handler : Context → T → R × Option GoError)
    (goName : String) (hdesc : rep.desc = .record goName .nil) :
    SafeNewFunctionTool rep name description handler = .ok
      { Name := name
        Description := description
        ParamsJSONSchema := .objectNode .nil [] true
        OnInvokeTool := functionToolOnInvoke rep.decode handler
        FailureErrorFunction := none
        StrictJSONSchema := some true
        IsEnabled := none } := by
  unfold SafeNewFunctionTool
  rw [hdesc]
  by_cases hg : goName = ""
  · subst hg
    rfl
  · have hanon : isAnonymousEmptyStruct (.record goName .nil) = false := by
      simp [isAnonymousEmptyStruct, hg]
    simp [hanon, deriveSchema, deriveFields, EnsureStrictJSONSchema,
      ensureStrictProps, SchemaProps.keys]

/-- Witness for C3 at the anonymous empty record type. -/
theorem safeNewFunctionTool_empty_record_witness :
    emptyRep.desc = .record "" .nil
    ∧ SafeNewFunctionTool emptyRep "t" "" unitHandler = .ok emptyTool := by
  refine ⟨rfl, ?_⟩
  exact safeNewFunctionTool_empty_record emptyRep "t" "" unitHandler "" rfl

/-- C4: for every tool built by `SafeNewFunctionTool` and every argument
string that decodes into a value `a` of the handler's argument type,
`OnInvokeTool` returns exactly the handler's value and error at the given
context and at `a`, with no further transformation — extensionally, the
handler is applied exactly once, to the given context and the decoded
arguments. -/
theorem onInvokeTool_decode_ok {T R : Type} (rep : GoTypeRep T)
    (name description : String) (handler : Context → T → R × Option GoError)
    (tool : FunctionTool R) (ctx : Context) (s : String) (a : T)
    (hdec : rep.decode s = .ok a)
    (hok : SafeNewFunctionTool rep name description handler = .ok tool) :
    tool.OnInvokeTool ctx s = (some (handler ctx a).1, (handler ctx a).2) := by
  obtain ⟨-, -, -, -, -, hinv⟩ :=
    safeNewFunctionTool_ok_shape rep name description handler tool hok
  rw [hinv]
  simp [functionToolOnInvoke, hdec]

/-- Witness for C4 at a concrete decodable payload. -/
theorem onInvokeTool_decode_ok_witness :
    natRep.decode "7" = .ok 7 ∧ natTool.OnInvokeTool ctx0 "7" = (some 8, none) := by
  refine ⟨rfl, ?_⟩
  exact (onInvokeTool_decode_ok natRep "add_one" "" natHandler natTool ctx0 "7" 7 rfl
    natTool_ok).trans rfl

/-- C5: encode-then-decode round trip.  For every value of the fixture
argument type — which exercises string/number/boolean scalars, an
enum-annotated field, a nested object and an array of objects — encoding it
to wire JSON and invoking a fixture tool's `OnInvokeTool` on that string
decodes it back to a value equal to the original before the handler is
called: the handler receives exactly the original value. -/
theorem onInvokeTool_round_trip {R : Type} (v : FixtureArgs)
    (name description : String)
    (handler : Context → FixtureArgs → R × Option GoError)
    (tool : FunctionTool R) (ctx : Context)
    (hok : SafeNewFunctionTool fixtureRep name description handler = .ok tool) :
    fixtureRep.decode (encodeFixture v) = .ok v
    ∧ tool.OnInvokeTool ctx (encodeFixture v) =
        (some (handler ctx v).1, (handler ctx v).2) := by
  have hdec : fixtureRep.decode (encodeFixture v) = .ok v :=
    decodeFixtureArgs_encodeFixture v
  obtain ⟨-, -, -, -, -, hinv⟩ :=
    safeNewFunctionTool_ok_shape fixtureRep name description handler tool hok
  refine ⟨hdec, ?_⟩
  rw [hinv]
  simp [functionToolOnInvoke, hdec]

/-- Witness for C5 at a concrete fixture value with escaped characters, a
negative number, an enum value, a nested object and two array elements. -/
theorem onInvokeTool_round_trip_witness :
    fixtureRep.decode (encodeFixture v0) = .ok v0
    ∧ fixtureTool.OnInvokeTool ctx0 (encodeFixture v0) = (some v0, none) := by
  refine ⟨(onInvokeTool_round_trip v0 "fx" "" fixtureHandler fixtureTool ctx0
    fixtureTool_ok).1, ?_⟩
  exact ((onInvokeTool_round_trip v0 "fx" "" fixtureHandler fixtureTool ctx0
    fixtureTool_ok).2).trans rfl

/-- C6: `NewFunctionTool` returns exactly the tool `SafeNewFunctionTool`
returns whenever the latter returns a nil error, and panics with exactly the
error `SafeNewFunctionTool` returns whenever that error is non-nil. -/
theorem newFunctionTool_refines_safe {T R : Type} (rep : GoTypeRep T)
    (name description : String) (handler : Context → T → R × Option GoError) :
    (∀ t : FunctionTool R,
        SafeNewFunctionTool rep name description handler = .ok t ↔
          NewFunctionTool rep name description handler = .ok t)
    ∧ (∀ e : GoError,
        SafeNewFunctionTool rep name description handler = .error e ↔
          NewFunctionTool rep name description handler = .panicked e) := by
  unfold NewFunctionTool
  cases h : SafeNewFunctionTool rep name description handler <;> simp

/-- Witness for C6: a free-form-map argument type makes `NewFunctionTool`
panic with the strictness error, and the bare-integer argument type makes it
return the same tool `SafeNewFunctionTool` builds. -/
theorem newFunctionTool_refines_safe_witness :
    NewFunctionTool freeMapRep "m" "" natHandler = .panicked strictErr
    ∧ NewFunctionTool natRep "add_one" "" natHandler = .ok natTool := by
  refine ⟨?_, ?_⟩
  · exact ((newFunctionTool_refines_safe freeMapRep "m" "" natHandler).2
      strictErr).mp rfl
  · exact ((newFunctionTool_refines_safe natRep "add_one" "" natHandler).1
      natTool).mp natTool_ok

/-- C7: every tool returned successfully by `SafeNewFunctionTool` has its
`StrictJSONSchema` field present and true. -/
theorem safeNewFunctionTool_strict_default {T R : Type} (rep : GoTypeRep T)
    (name description : String) (handler : Context → T → R × Option GoError)
    (tool : FunctionTool R)
    (hok : SafeNewFunctionTool rep name description handler = .ok tool) :
    tool.StrictJSONSchema = some true :=
  (safeNewFunctionTool_ok_shape rep name description handler tool hok).2.2.1

/-- Witness for C7 on a concretely constructed tool. -/
theorem safeNewFunctionTool_strict_default_witness :
    SafeNewFunctionTool natRep "add_one" "" natHandler = .ok natTool
    ∧ natTool.StrictJSONSchema = some true :=
  ⟨natTool_ok,
    safeNewFunctionTool_strict_default natRep "add_one" "" natHandler natTool natTool_ok⟩

/-- C8: the constant enablement policy returns the configured flag and a nil
error for every boolean, context and agent; in particular
`FunctionToolEnabled` always yields `(true, nil)` and
`FunctionToolDisabled` always yields `(false, nil)`. -/
theorem functionToolEnabledFlag_constant (b : Bool) (ctx : Context)
    (agent : Option Agent) :
    (NewFunctionToolEnabledFlag b).IsEnabled ctx agent = (b, none)
    ∧ FunctionToolEnabled.IsEnabled ctx agent = (true, none)
    ∧ FunctionToolDisabled.IsEnabled ctx agent = (false, none) :=
  ⟨rfl, rfl, rfl⟩

/-- C9: the delegating enablement policy returns exactly the wrapped
predicate's result — boolean and error propagated unchanged, so an error is
never converted into a disabled `(false, nil)` result. -/
theorem functionToolEnablerFunc_delegates (f : FunctionToolEnablerFunc)
    (ctx : Context) (agent : Option Agent) :
    FunctionToolEnablerFunc.IsEnabled f ctx agent = f ctx agent := rfl

/-- C10: every tool returned successfully by `SafeNewFunctionTool` has a nil
`FailureErrorFunction` and a nil `IsEnabled` field, so the documented
defaults (the generic masking policy and always-enabled) apply. -/
theorem safeNewFunctionTool_default_policies {T R : Type} (rep : GoTypeRep T)
    (name description : String) (handler : Context → T → R × Option GoError)
    (tool : FunctionTool R)
    (hok : SafeNewFunctionTool rep name description handler = .ok tool) :
    tool.FailureErrorFunction = none ∧ tool.IsEnabled = none := by
  obtain ⟨-, -, -, h1, h2, -⟩ :=
    safeNewFunctionTool_ok_shape rep name description handler tool hok
  exact ⟨h1, h2⟩

/-- Witness for C10 on a concretely constructed tool. -/
theorem safeNewFunctionTool_default_policies_witness :
    SafeNewFunctionTool emptyRep "t" "" unitHandler = .ok emptyTool
    ∧ emptyTool.FailureErrorFunction = none ∧ emptyTool.IsEnabled = none :=
  ⟨emptyTool_ok,
    (safeNewFunctionTool_default_policies emptyRep "t" "" unitHandler emptyTool
      emptyTool_ok).1,
    (safeNewFunctionTool_default_policies emptyRep "t" "" unitHandler emptyTool
      emptyTool_ok).2⟩
